import Mathlib

/-!
Verification of the post-processing pipeline of
`DeepSeek-OCR-master/DeepSeek-OCR-vllm/run_dpsk_ocr_pdf_batch.py`.

The pipeline parses an inline location-tag grammar out of generated OCR text,
maps normalized coordinates onto pixel coordinates, crops and saves image
regions, strips/substitutes the tags to build clean and tagged transcripts,
and drives a resumable batch over documents.

Texts are modelled as `List Char`.  Filesystem writes and page-loop progress
are modelled as an explicit event trace (`Event`).  The global NumPy random
number generator used for annotation colors is modelled as an uninterpreted
color stream `ColorStream` passed to the pipeline.  Python `eval` on the
coordinate text is modelled as a strict parser of integer list-of-list
literals (`evalCoords`); any other text takes the exception path (`none`),
mirroring the `try/except` around `eval` in `extract_coordinates_and_label`.
Python float arithmetic in the coordinate mapping is modelled as exact
rational arithmetic, expressed with integer division in `mapCoord`.
-/

/-- Substring search: returns `some (before, after)` such that
`hay = before ++ needle ++ after` for the leftmost occurrence of `needle`,
`none` when `needle` does not occur.  (For the nonempty needles used here this
is Python's `str.find` / `in`.) -/
def splitAtSub (needle : List Char) : List Char → Option (List Char × List Char)
  | [] => none
  | c :: rest =>
    if needle.isPrefixOf (c :: rest) then
      some ([], List.drop needle.length (c :: rest))
    else
      match splitAtSub needle rest with
      | some (b, a) => some (c :: b, a)
      | none => none

/-- Python's `needle in hay` for nonempty needles. -/
def containsSub (needle hay : List Char) : Bool :=
  (splitAtSub needle hay).isSome

/-- Fuelled worker for `replaceAll`; structural recursion on the fuel so that
the kernel can evaluate it. -/
def replaceAllAux (pat rep : List Char) : ℕ → List Char → List Char
  | 0, s => s
  | fuel + 1, s =>
    match s with
    | [] => []
    | c :: rest =>
      if pat ≠ [] ∧ pat.isPrefixOf (c :: rest) = true then
        rep ++ replaceAllAux pat rep fuel (List.drop (pat.length - 1) rest)
      else
        c :: replaceAllAux pat rep fuel rest

/-- Python's `s.replace(pat, rep)`: replace every non-overlapping occurrence,
scanning left to right. -/
def replaceAll (pat rep s : List Char) : List Char :=
  replaceAllAux pat rep s.length s

/-- Value of a digit string (most significant first). -/
def digitsToNat (l : List Char) : ℕ :=
  l.foldl (fun a c => a * 10 + (c.toNat - ('0').toNat)) 0

/-- Drop leading spaces. -/
def skipSpaces : List Char → List Char
  | ' ' :: r => skipSpaces r
  | l => l

/-- Parse an optionally negated decimal integer, returning the remainder. -/
def parseInt (l : List Char) : Option (ℤ × List Char) :=
  let l1 := skipSpaces l
  let neg : Bool := match l1 with
    | '-' :: _ => true
    | _ => false
  let l2 : List Char := match l1 with
    | '-' :: r => r
    | _ => l1
  let ds := l2.takeWhile Char.isDigit
  let rest := l2.dropWhile Char.isDigit
  if ds = [] then none
  else some ((if neg then -(digitsToNat ds : ℤ) else (digitsToNat ds : ℤ)), rest)

/-- Parse the `, int`* `]` tail of a bracketed integer list. -/
def parseIntListAux (fuel : ℕ) (acc : List ℤ) (l : List Char) :
    Option (List ℤ × List Char) :=
  match fuel with
  | 0 => none
  | fuel + 1 =>
    match skipSpaces l with
    | ']' :: r => some (acc, r)
    | ',' :: r =>
      match parseInt r with
      | some (n, r2) => parseIntListAux fuel (acc.concat n) r2
      | none => none
    | _ => none

/-- Parse a bracketed integer list such as `[10, 10, 500, 100]`. -/
def parseIntList (fuel : ℕ) (l : List Char) : Option (List ℤ × List Char) :=
  match skipSpaces l with
  | '[' :: r =>
    match skipSpaces r with
    | ']' :: rest => some ([], rest)
    | r2 =>
      match parseInt r2 with
      | some (n, rest) => parseIntListAux fuel [n] rest
      | none => none
  | _ => none

/-- Parse the `, list`* `]` tail of a list of integer lists. -/
def parseListListAux (fuel : ℕ) (acc : List (List ℤ)) (l : List Char) :
    Option (List (List ℤ) × List Char) :=
  match fuel with
  | 0 => none
  | fuel + 1 =>
    match skipSpaces l with
    | ']' :: r => some (acc, r)
    | ',' :: r =>
      match parseIntList fuel r with
      | some (xs, r2) => parseListListAux fuel (acc.concat xs) r2
      | none => none
    | _ => none

/-- Parse an outer list of integer lists such as `[[0,0,999,999]]`. -/
def parseListList (fuel : ℕ) (l : List Char) :
    Option (List (List ℤ) × List Char) :=
  match skipSpaces l with
  | '[' :: r =>
    match skipSpaces r with
    | ']' :: rest => some ([], rest)
    | r2 =>
      match parseIntList fuel r2 with
      | some (xs, rest) => parseListListAux fuel [xs] rest
      | none => none
  | _ => none

/-- Model of `eval(ref_text[2])` in `extract_coordinates_and_label`: the
coordinate text is evaluated as a literal list of integer lists; any text that
is not such a literal raises, i.e. returns `none` here. -/
def evalCoords (l : List Char) : Option (List (List ℤ)) :=
  match parseListList (l.length + 1) l with
  | some (v, rest) => if skipSpaces rest = [] then some v else none
  | none => none

/-- The literal `<|ref|>` opening sentinel of the location-tag grammar. -/
def refOpen : List Char := "<|ref|>".data

/-- The literal `<|/ref|><|det|>` middle sentinel separating label and coords. -/
def refCloseDetOpen : List Char := "<|/ref|><|det|>".data

/-- The literal `<|/det|>` closing sentinel. -/
def detClose : List Char := "<|/det|>".data

/-- The literal `<|ref|>image<|/ref|>` used by `re_match` to classify a
match as an image-type match. -/
def imageTag : List Char := "<|ref|>image<|/ref|>".data

/-- The terminal sentinel `<｜end▁of▁sentence｜>` marking a well-formed
completion of a page's generation. -/
def eosSentinel : List Char := "<｜end▁of▁sentence｜>".data

/-- The page separator `'\n<--- Page Split --->\n'` appended after each
processed page. -/
def pageSplit : List Char := "\n<--- Page Split --->\n".data

/-- The literal `\coloneqq` normalized during clean-up. -/
def coloneqqTok : List Char := "\\coloneqq".data

/-- Replacement for `\coloneqq`. -/
def coloneqqRep : List Char := ":=".data

/-- The literal `\eqqcolon` normalized during clean-up. -/
def eqqcolonTok : List Char := "\\eqqcolon".data

/-- Replacement for `\eqqcolon`. -/
def eqqcolonRep : List Char := "=:".data

/-- Four consecutive newlines, collapsed during clean-up. -/
def blank4 : List Char := "\n\n\n\n".data

/-- Three consecutive newlines, collapsed during clean-up. -/
def blank3 : List Char := "\n\n\n".data

/-- Two consecutive newlines, the collapse target. -/
def blank2 : List Char := "\n\n".data

/-- Message of the Python `ZeroDivisionError` raised by
`elapsed_time/processed_pages` when no page was processed. -/
def divMsg : List Char := "float division by zero".data

/-- One match of the regex
`(<\|ref\|>(.*?)<\|/ref\|><\|det\|>(.*?)<\|/det\|>)` in `re_match`:
group 1 (the whole match), group 2 (the label), group 3 (the coordinate
text). -/
structure RefMatch where
  full : List Char
  label : List Char
  coords : List Char
deriving DecidableEq

/-- Fuelled scanner equivalent to `re.findall` with the pattern above under
`re.DOTALL`: at the leftmost `<|ref|>`, the lazy groups stop at the first
following `<|/ref|><|det|>` and the first following `<|/det|>`; scanning
resumes after the match.  The fuel (the text length) is an upper bound on
the number of matches. -/
def reMatchAux : ℕ → List Char → List RefMatch
  | 0, _ => []
  | fuel + 1, text =>
    match splitAtSub refOpen text with
    | none => []
    | some (_, afterOpen) =>
      match splitAtSub refCloseDetOpen afterOpen with
      | none => []
      | some (lab, afterMid) =>
        match splitAtSub detClose afterMid with
        | none => []
        | some (coords, rest) =>
          ⟨refOpen ++ lab ++ refCloseDetOpen ++ coords ++ detClose,
            lab, coords⟩ :: reMatchAux fuel rest

/-- `re_match(text)`: all location-tag matches of the generated text, in
order of appearance. -/
def re_match (text : List Char) : List RefMatch :=
  reMatchAux text.length text

/-- `re_match`'s partition: the image-type matches, i.e. those whose full
text contains `<|ref|>image<|/ref|>`. -/
def re_match_images (text : List Char) : List RefMatch :=
  (re_match text).filter (fun m => containsSub imageTag m.full)

/-- `re_match`'s partition: all other matches. -/
def re_match_other (text : List Char) : List RefMatch :=
  (re_match text).filter (fun m => ! containsSub imageTag m.full)

/-- `extract_coordinates_and_label(ref_text, image_width, image_height)`:
evaluate the coordinate text; on failure the exception is logged and `None`
is returned, otherwise the pair `(label_type, cor_list)`.  The width and
height arguments are accepted but unused, as in the source. -/
def extract_coordinates_and_label (m : RefMatch) (_w _h : ℕ) :
    Option (List Char × List (List ℤ)) :=
  match evalCoords m.coords with
  | none => none
  | some corList => some (m.label, corList)

/-- `int(c / 999 * dim)`: the normalized-to-pixel coordinate mapping.
Python float arithmetic is modelled as exact rational arithmetic; `int()`
truncates toward zero, which is expressed with (Euclidean) integer division
of non-negative products below. -/
def mapCoord (c : ℤ) (d : ℕ) : ℤ :=
  if 0 ≤ c then c * d / 999 else -(-c * d / 999)

/-- An RGB color produced by `np.random.randint`. -/
def Color : Type := ℕ × ℕ × ℕ
deriving DecidableEq

/-- The global NumPy random number generator, modelled as the uninterpreted
stream of colors it would produce (one per decoded match). -/
def ColorStream : Type := ℕ → Color

/-- One drawing primitive applied to the annotated copy of a page bitmap:
the box outline, the semi-transparent fill (alpha 20), or the label text
placed above the box. -/
inductive DrawOp where
  | rect (box : ℤ × ℤ × ℤ × ℤ) (color : Color) (width : ℕ)
  | fill (box : ℤ × ℤ × ℤ × ℤ) (color : Color)
  | text (pos : ℤ × ℤ) (label : List Char) (color : Color)
deriving DecidableEq

/-- An observable effect of the pipeline, in program order: a cropped image
region persisted under `images/`, completion of one iteration of the
per-page post-processing loop, or one of the three per-document output
files being written. -/
inductive Event where
  | saveCrop (name : List Char)
  | pageDone (page : ℕ)
  | writeDet (text : List Char)
  | writeMmd (text : List Char)
  | writeLayouts (numPages : ℕ)
deriving DecidableEq

/-- Filename `f"{img_idx}.jpg"` of a cropped image region. -/
def cropName (imgIdx : ℕ) : List Char :=
  (Nat.repr imgIdx).data ++ ".jpg".data

/-- Result of processing the point list of one match (or a prefix of it):
crop-save events, drawing primitives, and the final running image index. -/
structure PointsOut where
  events : List Event
  ops : List DrawOp
  imgIdx : ℕ
deriving DecidableEq

/-- The `for points in points_list` loop body of `process_image_with_refs`
for a single match: map the four coordinates, crop-and-save image regions
(incrementing the running image index), then draw outline, fill and label.
A point that is not a 4-element list fails tuple unpacking; the exception is
caught by the per-match `try` and aborts the rest of this match's points,
keeping the effects already produced. -/
def processRefPoints (lab : List Char) (w h : ℕ) (save : Bool)
    (color : Color) : List (List ℤ) → ℕ → PointsOut
  | [], idx => ⟨[], [], idx⟩
  | pts :: rest, idx =>
    match pts with
    | [a, b, c, d] =>
      let x1 := mapCoord a w
      let y1 := mapCoord b h
      let x2 := mapCoord c w
      let y2 := mapCoord d h
      let cropEvs : List Event :=
        if lab = "image".data ∧ save then [Event.saveCrop (cropName idx)] else []
      let idx1 : ℕ := if lab = "image".data ∧ save then idx + 1 else idx
      let wd : ℕ := if lab = "title".data then 4 else 2
      let ops0 : List DrawOp :=
        [DrawOp.rect (x1, y1, x2, y2) color wd,
         DrawOp.fill (x1, y1, x2, y2) color,
         DrawOp.text (x1, max 0 (y1 - 15)) lab color]
      let r := processRefPoints lab w h save color rest idx1
      ⟨cropEvs ++ r.events, ops0 ++ r.ops, r.imgIdx⟩
    | _ => ⟨[], [], idx⟩

/-- Result of processing a list of matches: crop-save events, drawing
primitives, final running image index, and how many colors were drawn from
the random number generator. -/
structure RefsOut where
  events : List Event
  ops : List DrawOp
  imgIdx : ℕ
  cIdx : ℕ
deriving DecidableEq

/-- The per-match body of `process_image_with_refs`: a match whose
coordinates fail to decode is dropped; otherwise one random color is drawn
and every point of the match is processed. -/
def processRef (w h : ℕ) (save : Bool) (cs : ColorStream) (m : RefMatch)
    (idx cIdx : ℕ) : RefsOut :=
  match extract_coordinates_and_label m w h with
  | none => ⟨[], [], idx, cIdx⟩
  | some (lab, ptsList) =>
    let color := cs cIdx
    let r := processRefPoints lab w h save color ptsList idx
    ⟨r.events, r.ops, r.imgIdx, cIdx + 1⟩

/-- `process_image_with_refs(image, refs, img_idx_offset, images_output_path)`:
iterate the matches in order, starting the running image index at the given
offset.  `save` models `images_output_path` being non-`None`. -/
def process_image_with_refs (w h : ℕ) (save : Bool) (cs : ColorStream) :
    List RefMatch → ℕ → ℕ → RefsOut
  | [], idx, cIdx => ⟨[], [], idx, cIdx⟩
  | m :: rest, idx, cIdx =>
    let r1 := processRef w h save cs m idx cIdx
    let r2 := process_image_with_refs w h save cs rest r1.imgIdx r1.cIdx
    ⟨r1.events ++ r2.events, r1.ops ++ r2.ops, r2.imgIdx, r2.cIdx⟩

/-- Markdown image link `f'![](images/{str(jdx)}_{str(idx)}.jpg)\n'`
substituted for the `idx`-th image-type match of page counter `jdx`. -/
def imageLink (jdx idx : ℕ) : List Char :=
  "![](images/".data ++ (Nat.repr jdx).data ++ "_".data ++
    (Nat.repr idx).data ++ ".jpg)\n".data

/-- The `for idx, a_match_image in enumerate(matches_images)` loop: replace
each image-type match occurrence with its Markdown image link. -/
def cleanImageSubstAux (jdx idx : ℕ) :
    List RefMatch → List Char → List Char
  | [], c => c
  | m :: rest, c =>
    cleanImageSubstAux jdx (idx + 1) rest (replaceAll m.full (imageLink jdx idx) c)

/-- The `for idx, a_match_other in enumerate(mathes_other)` loop: strip each
non-image match occurrence and, on each iteration, normalize the
`\coloneqq`/`\eqqcolon` escapes and collapse blank-line runs, in source
order. -/
def cleanOtherStripAux : List RefMatch → List Char → List Char
  | [], c => c
  | m :: rest, c =>
    cleanOtherStripAux rest
      (replaceAll blank3 blank2
        (replaceAll blank4 blank2
          (replaceAll eqqcolonTok eqqcolonRep
            (replaceAll coloneqqTok coloneqqRep
              (replaceAll m.full [] c)))))

/-- One page handed to the post-processing loop: the model's generated text
for the page and the page bitmap's pixel dimensions. -/
structure PageIn where
  text : List Char
  width : ℕ
  height : ℕ
deriving DecidableEq

/-- The loop state of the post-processing `for output, img in zip(...)` loop
in `process_single_pdf`: the tagged transcript, the clean transcript, the
annotated pages (`draw_images`, kept as their drawing primitives), the event
trace, the page counter `jdx`, `processed_pages`, the number of random
colors consumed so far, and the input-position counter used by the
`pageDone` trace events. -/
structure LoopState where
  contentsDet : List Char
  contents : List Char
  drawImages : List (List DrawOp)
  events : List Event
  jdx : ℕ
  processedPages : ℕ
  cIdx : ℕ
  pageNo : ℕ
deriving DecidableEq

/-- Initial loop state (`contents_det = ''`, `contents = ''`,
`draw_images = []`, `jdx = 0`, `processed_pages = 0`). -/
def initState : LoopState := ⟨[], [], [], [], 0, 0, 0, 0⟩

/-- The body of the loop for a page that is kept (either the terminal
sentinel was present and has been stripped from `content`, or
`SKIP_REPEAT` is disabled): append to the tagged transcript, run
`process_image_with_refs` on all matches with offset `jdx`, substitute
image links, strip other tags and normalize, append to the clean
transcript, and advance `jdx`. -/
def processKept (cs : ColorStream) (st : LoopState) (p : PageIn)
    (content : List Char) : LoopState :=
  let ms := re_match content
  let msImages := ms.filter (fun m => containsSub imageTag m.full)
  let msOther := ms.filter (fun m => ! containsSub imageTag m.full)
  let r := process_image_with_refs p.width p.height true cs ms st.jdx st.cIdx
  let c1 := cleanImageSubstAux st.jdx 0 msImages content
  let c2 := cleanOtherStripAux msOther c1
  { contentsDet := st.contentsDet ++ content ++ pageSplit
    contents := st.contents ++ c2 ++ pageSplit
    drawImages := st.drawImages ++ [r.ops]
    events := st.events ++ r.events ++ [Event.pageDone st.pageNo]
    jdx := st.jdx + 1
    processedPages := st.processedPages + 1
    cIdx := r.cIdx
    pageNo := st.pageNo + 1 }

/-- One iteration of the post-processing loop: a page whose text contains
the terminal sentinel has the sentinel stripped and is processed; otherwise,
when `SKIP_REPEAT` is enabled, the page is skipped entirely (`continue`),
and when it is disabled the page is processed with the sentinel left
in place. -/
def stepPage (skipRepeat : Bool) (cs : ColorStream) (st : LoopState)
    (p : PageIn) : LoopState :=
  if containsSub eosSentinel p.text then
    processKept cs st p (replaceAll eosSentinel [] p.text)
  else if skipRepeat then
    { st with
      events := st.events ++ [Event.pageDone st.pageNo]
      pageNo := st.pageNo + 1 }
  else
    processKept cs st p p.text

/-- The whole post-processing loop over the document's pages. -/
def runLoop (skipRepeat : Bool) (cs : ColorStream) (pages : List PageIn) :
    LoopState :=
  pages.foldl (stepPage skipRepeat cs) initState

/-- The body of `process_single_pdf` after the resumability check, reduced
to its observable effects: the post-processing loop, then the writes of the
tagged transcript, the clean transcript and (when `draw_images` is
non-empty; `pil_to_pdf_img2pdf` returns early on an empty list) the
annotated PDF, and finally the per-page-time summary whose
`elapsed_time/processed_pages` raises `ZeroDivisionError` when no page was
processed.  Returns the event trace together with either the error message
or `(total_pages, processed_pages)`. -/
def runBody (skipRepeat : Bool) (cs : ColorStream) (pages : List PageIn) :
    List Event × Except (List Char) (ℕ × ℕ) :=
  let st := runLoop skipRepeat cs pages
  let evs := st.events ++ [Event.writeDet st.contentsDet, Event.writeMmd st.contents]
    ++ (if st.drawImages.length = 0 then [] else [Event.writeLayouts st.drawImages.length])
  (evs, if st.processedPages = 0 then Except.error divMsg
        else Except.ok (pages.length, st.processedPages))

/-- Per-document status of `process_single_pdf`. -/
inductive DocStatus where
  | success (totalPages processedPages : ℕ)
  | failed (error : List Char)
  | skipped
deriving DecidableEq

/-- The skeleton of `process_single_pdf`: when the primary output
`{pdf_name}.mmd` already exists the document is skipped before anything
runs; otherwise the body runs under `try/except Exception`, any raised
exception producing status `failed` with the exception's message. -/
def processDocExcept (mmdExists : Bool)
    (body : List Event × Except (List Char) (ℕ × ℕ)) :
    List Event × DocStatus :=
  if mmdExists then ([], DocStatus.skipped)
  else
    match body with
    | (evs, Except.error e) => (evs, DocStatus.failed e)
    | (evs, Except.ok (t, p)) => (evs, DocStatus.success t p)

/-- `process_single_pdf(pdf_path, output_base_path)` for one document:
`mmdExists` models `os.path.exists(mmd_path)`, `skipRepeat` the
`SKIP_REPEAT` configuration constant, and `pages` the rasterized pages
paired with their generated texts. -/
def process_single_pdf (mmdExists skipRepeat : Bool) (cs : ColorStream)
    (pages : List PageIn) : List Event × DocStatus :=
  processDocExcept mmdExists (runBody skipRepeat cs pages)

/-- One document of a batch, reduced to what the batch controller sees: the
resumability-check outcome and the `try`-protected body's trace and result. -/
def DocIn : Type :=
  Bool × (List Event × Except (List Char) (ℕ × ℕ))

/-- The `for i, pdf_file in enumerate(pdf_files, 1)` loop of the main
program: every document is handed to `process_single_pdf` and its result is
appended to `results`; no result aborts the loop. -/
def batchRun (docs : List DocIn) : List (List Event × DocStatus) :=
  docs.map (fun d => processDocExcept d.1 d.2)

/-- Whether an event is a filesystem write. -/
def isWrite : Event → Bool
  | Event.saveCrop _ => true
  | Event.writeDet _ => true
  | Event.writeMmd _ => true
  | Event.writeLayouts _ => true
  | Event.pageDone _ => false

/-- Whether an event marks the completion of one page's loop iteration. -/
def isPageDone : Event → Bool
  | Event.pageDone _ => true
  | _ => false

/-- Whether an event is one of the three per-document output-file writes
(the crops under `images/` excluded). -/
def isDocWrite : Event → Bool
  | Event.writeDet _ => true
  | Event.writeMmd _ => true
  | Event.writeLayouts _ => true
  | _ => false

/-- Every event selected by `p` happens only after all pages have been
processed, i.e. no `pageDone` event follows it in the trace. -/
def writesAfterPages (p : Event → Bool) : List Event → Bool
  | [] => true
  | e :: rest =>
    (if p e then ! rest.any isPageDone else true) && writesAfterPages p rest

/-- The crop filenames written under `images/`, in trace order. -/
def cropEvents (evs : List Event) : List (List Char) :=
  evs.filterMap (fun e => match e with
    | Event.saveCrop n => some n
    | _ => none)

/-- A fixed color stream (one possible run of the random number generator). -/
def cs0 : ColorStream := fun _ => (0, 0, 0)

/-- Another color stream (a different run of the generator). -/
def csB : ColorStream := fun _ => (100, 100, 100)

/-- Generated text of the spec scenario for C1: a single region tagged
`image` with coordinates `[[0,0,999,999]]`, terminated by the sentinel. -/
def c1text : List Char :=
  "<|ref|>image<|/ref|><|det|>[[0,0,999,999]]<|/det|>".data ++ eosSentinel

/-- The C1 scenario page: the text above on a 1000x1000 bitmap. -/
def c1page : PageIn := ⟨c1text, 1000, 1000⟩

/-- The parenthesized target of the Markdown link the code inserts for the
first image region of the first page. -/
def c1link : List Char := "(images/0_0.jpg)".data

/-- The filename referenced by that link. -/
def c1linkName : List Char := "0_0.jpg".data

/-- A single image-type match with coordinates `[[0,0,50,50]]`. -/
def img50 : List Char :=
  "<|ref|>image<|/ref|><|det|>[[0,0,50,50]]<|/det|>".data

/-- C2 scenario, page 1: two image regions. -/
def c2p0 : PageIn := ⟨img50 ++ img50 ++ eosSentinel, 100, 100⟩

/-- C2 scenario, page 2: one image region. -/
def c2p1 : PageIn := ⟨img50 ++ eosSentinel, 100, 100⟩

/-- C3 scenario, page 1 text: a `title` region followed by `Hello`,
terminated by the sentinel. -/
def c3t1 : List Char :=
  "<|ref|>title<|/ref|><|det|>[[10,10,500,100]]<|/det|>Hello".data ++ eosSentinel

/-- C3 scenario, page 2 text: degenerate repeated output, no sentinel. -/
def c3t2 : List Char := "abababab".data

/-- C3 scenario, page 1. -/
def c3p1 : PageIn := ⟨c3t1, 1000, 1000⟩

/-- C3 scenario, page 2. -/
def c3p2 : PageIn := ⟨c3t2, 1000, 1000⟩

/-- C6 scenario, page 1: contains an image region, so a crop is written
while page 2 is still unprocessed. -/
def c6p0 : PageIn := ⟨img50 ++ eosSentinel, 200, 200⟩

/-- C6 scenario, page 2: plain text. -/
def c6p1 : PageIn := ⟨"plain".data ++ eosSentinel, 200, 200⟩

/-- A match whose coordinate text `abc` does not decode (in the source,
`eval('abc')` raises `NameError`). -/
def c5m : RefMatch :=
  ⟨refOpen ++ "text".data ++ refCloseDetOpen ++ "abc".data ++ detClose,
    "text".data, "abc".data⟩

/-- A well-formed image match, used as a neighbour of the malformed one. -/
def c5good : RefMatch :=
  ⟨refOpen ++ "image".data ++ refCloseDetOpen ++ "[[0,0,50,50]]".data ++ detClose,
    "image".data, "[[0,0,50,50]]".data⟩

/-- Plain page text following the malformed match in the C5 witness. -/
def c5v : List Char := "Hello".data

/-- Error message of the failing document in the C7 witness. -/
def c7msg : List Char := "boom".data

/-- A two-document batch whose first document's body raises. -/
def c7docs : List DocIn :=
  [(false, ([], Except.error c7msg)), (false, ([], Except.ok (3, 2)))]

/-- A page without the terminal sentinel (C9 witness). -/
def c9page : PageIn := ⟨"abab".data, 10, 10⟩

/-- A page with one decodable `title` region, whose annotation colors come
from the random number generator (C10). -/
def c10page : PageIn :=
  ⟨"<|ref|>title<|/ref|><|det|>[[10,10,50,50]]<|/det|>ok".data ++ eosSentinel,
    100, 100⟩

set_option maxRecDepth 80000

/-- C1: on the spec's own scenario (one region tagged `image` with
coordinates `[[0,0,999,999]]` on a 1000x1000 bitmap), the crop is written
as `images/0.jpg` (the document's first image file, index 0), but the
Markdown reference inserted into the clean transcript points to
`images/0_0.jpg`, a filename that is never written: the link does not use
the filename assigned during cropping. -/
theorem c1_link_crop_mismatch :
    cropEvents (process_single_pdf false true cs0 [c1page]).1 = [cropName 0]
    ∧ containsSub c1link (runLoop true cs0 [c1page]).contents = true
    ∧ Event.saveCrop c1linkName ∉ (process_single_pdf false true cs0 [c1page]).1 := by
  refine ⟨by decide, by decide, by decide⟩

/-- C2: for a document whose first page has two image regions and whose
second page has one, the crop filenames written are `0.jpg`, `1.jpg` and
then `1.jpg` again (each page's running index restarts at the page counter
`jdx`), so the index value 1 is assigned to two different regions and the
filename sequence is not duplicate-free. -/
theorem c2_index_reuse :
    cropEvents (process_single_pdf false true cs0 [c2p0, c2p1]).1 =
      [cropName 0, cropName 1, cropName 1]
    ∧ ¬ List.Nodup (cropEvents (process_single_pdf false true cs0 [c2p0, c2p1]).1) := by
  refine ⟨by decide, by decide⟩

/-- C3 counterexample: in the spec's 2-page scenario (page 1 well-formed,
page 2 without the terminal sentinel, skip policy enabled), the tagged
transcript does `not` contain page 2's raw text and the annotated PDF has
1 page, not 2: a skipped page is dropped from the tagged output and the
layouts PDF as well. -/
theorem c3_counterexample :
    containsSub c3t2 (runLoop true cs0 [c3p1, c3p2]).contentsDet = false
    ∧ Event.writeLayouts 2 ∉ (process_single_pdf false true cs0 [c3p1, c3p2]).1
    ∧ (runLoop true cs0 [c3p1, c3p2]).drawImages.length = 1 := by
  refine ⟨by decide, by decide, by decide⟩

/-- C6 counterexample: for a 2-page document whose first page contains an
image region, the crop under `images/` is written while the second page is
still unprocessed, so it is false that no output file is written before all
of the document's pages have been processed. -/
theorem c6_counterexample :
    writesAfterPages isWrite (process_single_pdf false true cs0 [c6p0, c6p1]).1 = false := by
  decide

/-- C8: when the primary output `{pdf_name}.mmd` already exists, the
document is reported `skipped` with an empty event trace — independently of
the configuration, the random stream and the pages, i.e. without
rasterizing, inferring or post-processing anything and without touching any
existing output file. -/
theorem c8_skip_idempotent (skipRepeat : Bool) (cs : ColorStream)
    (pages : List PageIn) :
    process_single_pdf true skipRepeat cs pages = ([], DocStatus.skipped) := by
  rfl

/-- C4 counterexample: the mapper does not round.  At normalized coordinate
1 and dimension 1500 the code computes `int(1 / 999 * 1500) = 1`, while
`round(1 / 999 * 1500) = 2`. -/
theorem c4_counterexample :
    mapCoord 1 1500 = 1
    ∧ round ((1 : ℚ) / 999 * 1500) = 2
    ∧ mapCoord 1 1500 ≠ round ((1 : ℚ) / 999 * 1500) := by
  have h1 : mapCoord 1 1500 = 1 := by decide
  have h2 : round ((1 : ℚ) / 999 * 1500) = 2 := by
    rw [round_eq]
    norm_num
  exact ⟨h1, h2, by rw [h1, h2]; decide⟩

/-- C4 amended: for every normalized coordinate `c` in `[0, 999]` and every
dimension `d`, the mapper computes the truncation `⌊c / 999 * d⌋` (`int()`,
not `round()`), and the result still satisfies `0 ≤ pixel ≤ d`. -/
theorem c4_trunc_bound (c : ℤ) (d : ℕ) (h0 : 0 ≤ c) (h9 : c ≤ 999) :
    mapCoord c d = Int.floor ((c : ℚ) / 999 * d)
    ∧ 0 ≤ mapCoord c d ∧ mapCoord c d ≤ d := by
  have hfloor : mapCoord c d = Int.floor ((c : ℚ) / 999 * d) := by
    rw [mapCoord, if_pos h0]
    have h : ((c : ℚ) / 999 * d) = ((c * d : ℤ) : ℚ) / ((999 : ℕ) : ℚ) := by
      push_cast
      ring
    rw [h, Rat.floor_intCast_div_natCast]
    norm_num
  have hq0 : (0 : ℚ) ≤ (c : ℚ) / 999 * d := by
    apply mul_nonneg
    · apply div_nonneg
      · exact_mod_cast h0
      · norm_num
    · exact Nat.cast_nonneg d
  have hqd : (c : ℚ) / 999 * d ≤ (d : ℚ) := by
    have hle1 : (c : ℚ) / 999 ≤ 1 := by
      apply div_le_one_of_le₀
      · exact_mod_cast h9
      · norm_num
    calc (c : ℚ) / 999 * d ≤ 1 * d := by
          apply mul_le_mul_of_nonneg_right hle1 (Nat.cast_nonneg d)
      _ = (d : ℚ) := one_mul _
  refine ⟨hfloor, ?_, ?_⟩
  · rw [hfloor]
    exact Int.floor_nonneg.mpr hq0
  · rw [hfloor]
    calc Int.floor ((c : ℚ) / 999 * d) ≤ Int.floor ((d : ℚ)) := Int.floor_le_floor hqd
      _ = (d : ℤ) := Int.floor_natCast d

/-- C4 witness: the amended statement evaluated at `c = 500`, `d = 1000`. -/
theorem c4_witness :
    (0 : ℤ) ≤ 500 ∧ (500 : ℤ) ≤ 999
    ∧ (mapCoord 500 1000 = Int.floor ((500 : ℚ) / 999 * 1000)
        ∧ 0 ≤ mapCoord 500 1000 ∧ mapCoord 500 1000 ≤ 1000) := by
  exact ⟨by norm_num, by norm_num, c4_trunc_bound 500 1000 (by norm_num) (by norm_num)⟩

/-- A prefix of a cons list starts with the same head. -/
theorem isPrefixOf_cons_head (c d : Char) (pr rest : List Char)
    (h : (c :: pr).isPrefixOf (d :: rest) = true) : c = d := by
  simp [List.isPrefixOf] at h
  exact h.1

/-- `replaceAll` leaves a string untouched when the pattern's first
character does not occur in it (fuelled version, any fuel). -/
theorem replaceAllAux_head_not_mem (c : Char) (pr rep : List Char) :
    ∀ (fuel : ℕ) (s : List Char), c ∉ s → replaceAllAux (c :: pr) rep fuel s = s := by
  intro fuel
  induction fuel with
  | zero => intro s _; rfl
  | succ n ih =>
    intro s hs
    cases s with
    | nil => rfl
    | cons d rest =>
      show (if (c :: pr) ≠ [] ∧ (c :: pr).isPrefixOf (d :: rest) = true then
          rep ++ replaceAllAux (c :: pr) rep n (List.drop ((c :: pr).length - 1) rest)
        else d :: replaceAllAux (c :: pr) rep n rest) = d :: rest
      rw [if_neg]
      · have hcr : c ∉ rest := fun hmem => hs (List.mem_cons_of_mem _ hmem)
        rw [ih rest hcr]
      · intro hcontra
        have := isPrefixOf_cons_head c d pr rest hcontra.2
        exact hs (this ▸ List.mem_cons_self _ _)

/-- `replaceAll` leaves a string untouched when the pattern's first
character does not occur in it. -/
theorem replaceAll_head_not_mem (c : Char) (pr rep s : List Char) (h : c ∉ s) :
    replaceAll (c :: pr) rep s = s :=
  replaceAllAux_head_not_mem c pr rep s.length s h

/-- Every list is a prefix of itself followed by anything. -/
theorem isPrefixOf_append_self (l t : List Char) :
    l.isPrefixOf (l ++ t) = true := by
  induction l with
  | nil => simp [List.isPrefixOf]
  | cons a l ih => simp [List.isPrefixOf, ih]

/-- Stripping a pattern from `pattern ++ v` yields `v` when the pattern's
first character does not occur in `v`. -/
theorem replaceAll_strip_self (c : Char) (pr v : List Char) (h : c ∉ v) :
    replaceAll (c :: pr) [] ((c :: pr) ++ v) = v := by
  show replaceAllAux (c :: pr) [] ((c :: pr) ++ v).length ((c :: pr) ++ v) = v
  have hlen : ((c :: pr) ++ v).length = (pr ++ v).length + 1 := by
    simp
  rw [hlen]
  show (if (c :: pr) ≠ [] ∧ (c :: pr).isPrefixOf (c :: (pr ++ v)) = true then
      [] ++ replaceAllAux (c :: pr) [] (pr ++ v).length
        (List.drop ((c :: pr).length - 1) (pr ++ v))
    else c :: replaceAllAux (c :: pr) [] (pr ++ v).length (pr ++ v)) = v
  rw [if_pos]
  · have hdrop : List.drop ((c :: pr).length - 1) (pr ++ v) = v := by
      simp [List.drop_left]
    rw [hdrop, List.nil_append]
    exact replaceAllAux_head_not_mem c pr [] _ v h
  · exact ⟨List.cons_ne_nil c pr, isPrefixOf_append_self (c :: pr) v⟩

/-- A match whose coordinate text fails to decode contributes nothing to
`process_image_with_refs`: the list of matches with it removed yields the
same crops, drawings and counters. -/
theorem pir_drop_malformed (w h : ℕ) (save : Bool) (cs : ColorStream)
    (m : RefMatch) (hdec : evalCoords m.coords = none) :
    ∀ (pre post : List RefMatch) (idx cIdx : ℕ),
      process_image_with_refs w h save cs (pre ++ m :: post) idx cIdx =
        process_image_with_refs w h save cs (pre ++ post) idx cIdx := by
  intro pre
  induction pre with
  | nil =>
    intro post idx cIdx
    simp [process_image_with_refs, processRef, extract_coordinates_and_label, hdec]
  | cons a pre ih =>
    intro post idx cIdx
    simp only [List.cons_append, process_image_with_refs, List.append_eq]
    rw [ih]

/-- The head-decomposition of `refOpen`. -/
theorem refOpen_cons : refOpen = '<' :: ("|ref|>").data := rfl

/-- The head-decomposition of `coloneqqTok`. -/
theorem coloneqqTok_cons : coloneqqTok = '\\' :: ("coloneqq").data := rfl

/-- The head-decomposition of `eqqcolonTok`. -/
theorem eqqcolonTok_cons : eqqcolonTok = '\\' :: ("eqqcolon").data := rfl

/-- The head-decomposition of `blank4`. -/
theorem blank4_cons : blank4 = '\n' :: ("\n\n\n").data := rfl

/-- The head-decomposition of `blank3`. -/
theorem blank3_cons : blank3 = '\n' :: ("\n\n").data := rfl

/-- C5: a location-tag match whose coordinate text fails to decode is
dropped without aborting the page: `extract_coordinates_and_label` returns
`None`, `process_image_with_refs` over a match list containing it behaves
exactly as over the list without it (the remaining matches are still
processed, no crop or drawing comes from it, no random color is consumed),
and the clean-transcript strip loop still removes the match's raw tag text
(for a page text consisting of the match followed by plain text free of
tag-opening, escape and newline characters, the stripped result is exactly
that plain text). -/
theorem c5_malformed_match_dropped (m : RefMatch) (w h : ℕ) (save : Bool)
    (cs : ColorStream) (idx cIdx : ℕ) (pre post : List RefMatch) (v : List Char)
    (hdec : evalCoords m.coords = none)
    (hm : m.full = refOpen ++ m.label ++ refCloseDetOpen ++ m.coords ++ detClose)
    (hv1 : '<' ∉ v) (hv2 : '\\' ∉ v) (hv3 : '\n' ∉ v) :
    extract_coordinates_and_label m w h = none
    ∧ process_image_with_refs w h save cs (pre ++ m :: post) idx cIdx =
        process_image_with_refs w h save cs (pre ++ post) idx cIdx
    ∧ cleanOtherStripAux [m] (m.full ++ v) = v := by
  have hfull : m.full =
      '<' :: (("|ref|>").data ++ m.label ++ refCloseDetOpen ++ m.coords ++ detClose) := by
    rw [hm, refOpen_cons]
    simp [List.cons_append, List.append_assoc]
  refine ⟨?_, pir_drop_malformed w h save cs m hdec pre post idx cIdx, ?_⟩
  · simp [extract_coordinates_and_label, hdec]
  · have e1 : replaceAll m.full [] (m.full ++ v) = v := by
      rw [hfull]
      exact replaceAll_strip_self '<' _ v hv1
    have e2 : replaceAll coloneqqTok coloneqqRep v = v := by
      rw [coloneqqTok_cons]
      exact replaceAll_head_not_mem '\\' _ _ v hv2
    have e3 : replaceAll eqqcolonTok eqqcolonRep v = v := by
      rw [eqqcolonTok_cons]
      exact replaceAll_head_not_mem '\\' _ _ v hv2
    have e4 : replaceAll blank4 blank2 v = v := by
      rw [blank4_cons]
      exact replaceAll_head_not_mem '\n' _ _ v hv3
    have e5 : replaceAll blank3 blank2 v = v := by
      rw [blank3_cons]
      exact replaceAll_head_not_mem '\n' _ _ v hv3
    show cleanOtherStripAux []
        (replaceAll blank3 blank2
          (replaceAll blank4 blank2
            (replaceAll eqqcolonTok eqqcolonRep
              (replaceAll coloneqqTok coloneqqRep
                (replaceAll m.full [] (m.full ++ v)))))) = v
    rw [e1, e2, e3, e4, e5]
    rfl

/-- C5 witness: the theorem applied to the concrete malformed match `c5m`
(coordinate text `abc`), a well-formed image match after it, and the page
text `c5m.full ++ Hello`. -/
theorem c5_witness :
    evalCoords c5m.coords = none
    ∧ c5m.full = refOpen ++ c5m.label ++ refCloseDetOpen ++ c5m.coords ++ detClose
    ∧ '<' ∉ c5v ∧ '\\' ∉ c5v ∧ '\n' ∉ c5v
    ∧ (extract_coordinates_and_label c5m 100 100 = none
        ∧ process_image_with_refs 100 100 true cs0 ([] ++ c5m :: [c5good]) 0 0 =
            process_image_with_refs 100 100 true cs0 ([] ++ [c5good]) 0 0
        ∧ cleanOtherStripAux [c5m] (c5m.full ++ c5v) = c5v) := by
  refine ⟨by decide, by decide, by decide, by decide, by decide, ?_⟩
  exact c5_malformed_match_dropped c5m 100 100 true cs0 0 0 [] [c5good] c5v
    (by decide) (by decide) (by decide) (by decide) (by decide)

/-- Both conjuncts of a boolean conjunction. -/
theorem bool_and_mk (a b : Bool) (h1 : a = true) (h2 : b = true) :
    (a && b) = true := by
  rw [h1, h2]
  rfl

/-- Split a boolean conjunction. -/
theorem bool_and_split (a b : Bool) (h : (a && b) = true) :
    a = true ∧ b = true := by
  cases a
  · exact absurd h (by simp)
  · cases b
    · exact absurd h (by simp)
    · exact ⟨rfl, rfl⟩

/-- The events produced while processing one match's points are crop saves
only, never one of the three per-document file writes. -/
theorem points_events_nodocwrite (lab : List Char) (w h : ℕ) (save : Bool)
    (color : Color) :
    ∀ (pts : List (List ℤ)) (idx : ℕ),
      ((processRefPoints lab w h save color pts idx).events).all
        (fun e => ! isDocWrite e) = true := by
  intro pts
  induction pts with
  | nil => intro idx; rfl
  | cons p rest ih =>
    intro idx
    rcases p with - | ⟨a, - | ⟨b, - | ⟨c, - | ⟨d, - | ⟨x, xs⟩⟩⟩⟩⟩
    · rfl
    · rfl
    · rfl
    · rfl
    · simp only [processRefPoints, List.all_append]
      refine bool_and_mk _ _ ?_ (ih _)
      by_cases himg : lab = ("image").data ∧ save
      · simp [himg, isDocWrite]
      · simp [himg]
    · rfl

/-- The events produced by one match are crop saves only. -/
theorem pref_events_nodocwrite (w h : ℕ) (save : Bool) (cs : ColorStream)
    (m : RefMatch) (idx cIdx : ℕ) :
    ((processRef w h save cs m idx cIdx).events).all
      (fun e => ! isDocWrite e) = true := by
  cases hx : extract_coordinates_and_label m w h with
  | none => simp [processRef, hx]
  | some r =>
    rcases r with ⟨lab, ptsList⟩
    simp only [processRef, hx]
    exact points_events_nodocwrite lab w h save (cs cIdx) ptsList idx

/-- The events produced by `process_image_with_refs` are crop saves only. -/
theorem pir_events_nodocwrite (w h : ℕ) (save : Bool) (cs : ColorStream) :
    ∀ (refs : List RefMatch) (idx cIdx : ℕ),
      ((process_image_with_refs w h save cs refs idx cIdx).events).all
        (fun e => ! isDocWrite e) = true := by
  intro refs
  induction refs with
  | nil => intro idx cIdx; rfl
  | cons m rest ih =>
    intro idx cIdx
    simp only [process_image_with_refs, List.all_append]
    exact bool_and_mk _ _ (pref_events_nodocwrite w h save cs m idx cIdx) (ih _ _)

/-- The post-processing loop only ever appends crop saves and page markers
to the trace: no per-document file write happens inside the loop. -/
theorem loop_events_nodocwrite (skip : Bool) (cs : ColorStream) :
    ∀ (pages : List PageIn) (st : LoopState),
      st.events.all (fun e => ! isDocWrite e) = true →
      ((pages.foldl (stepPage skip cs) st).events).all
        (fun e => ! isDocWrite e) = true := by
  intro pages
  induction pages with
  | nil => intro st h; simpa using h
  | cons p rest ih =>
    intro st h
    rw [List.foldl_cons]
    apply ih
    rw [stepPage]
    by_cases heos : containsSub eosSentinel p.text
    · rw [if_pos heos]
      simp only [processKept, List.all_append]
      refine bool_and_mk _ _ (bool_and_mk _ _ h ?_) (by simp [isDocWrite])
      exact pir_events_nodocwrite p.width p.height true cs _ st.jdx st.cIdx
    · rw [if_neg heos]
      by_cases hskip : skip
      · simp only [if_pos hskip, List.all_append]
        exact bool_and_mk _ _ h (by simp [isDocWrite])
      · rw [if_neg hskip]
        simp only [processKept, List.all_append]
        refine bool_and_mk _ _ (bool_and_mk _ _ h ?_) (by simp [isDocWrite])
        exact pir_events_nodocwrite p.width p.height true cs _ st.jdx st.cIdx

/-- A trace without page markers trivially satisfies `writesAfterPages`. -/
theorem writesAfterPages_of_no_pagedone (p : Event → Bool) :
    ∀ evs, evs.all (fun e => ! isPageDone e) = true →
      writesAfterPages p evs = true := by
  intro evs
  induction evs with
  | nil => intro h; rfl
  | cons e rest ih =>
    intro h
    rw [List.all_cons] at h
    obtain ⟨h1, h2⟩ := bool_and_split _ _ h
    have hany : rest.any isPageDone = false := by
      cases hr : rest.any isPageDone
      · rfl
      · exfalso
        rw [List.any_eq_true] at hr
        obtain ⟨x, hx, hpx⟩ := hr
        rw [List.all_eq_true] at h2
        have := h2 x hx
        simp [hpx] at this
    rw [writesAfterPages, hany, ih h2]
    cases p e <;> simp

/-- A trace whose first part contains no `p`-write and whose second part
contains no page marker satisfies `writesAfterPages p`. -/
theorem writesAfterPages_append (p : Event → Bool) :
    ∀ evs1 evs2, evs1.all (fun e => ! p e) = true →
      evs2.all (fun e => ! isPageDone e) = true →
      writesAfterPages p (evs1 ++ evs2) = true := by
  intro evs1
  induction evs1 with
  | nil =>
    intro evs2 _ h2
    exact writesAfterPages_of_no_pagedone p evs2 h2
  | cons e rest ih =>
    intro evs2 h1 h2
    rw [List.all_cons] at h1
    obtain ⟨h1e, h1r⟩ := bool_and_split _ _ h1
    rw [List.cons_append, writesAfterPages]
    have hpe : p e = false := by
      cases hp : p e
      · rfl
      · rw [hp] at h1e
        exact absurd h1e (by simp)
    rw [hpe, ih evs2 h1r h2]
    simp

/-- The skeleton keeps the body's trace when the document is not skipped. -/
theorem processDocExcept_fst (body : List Event × Except (List Char) (ℕ × ℕ)) :
    (processDocExcept false body).1 = body.1 := by
  rcases body with ⟨evs, r⟩
  cases r with
  | error e => rfl
  | ok tp =>
    rcases tp with ⟨t, q⟩
    rfl

/-- C6 amended: the clean transcript, the tagged transcript and the
annotated PDF are written only after every page of the document has been
processed (no page marker follows any of those writes in the trace) — the
cropped files under `images/`, however, are written during page processing,
as the counterexample shows. -/
theorem c6_doc_writes_after_pages (mmdExists skipRepeat : Bool)
    (cs : ColorStream) (pages : List PageIn) :
    writesAfterPages isDocWrite (process_single_pdf mmdExists skipRepeat cs pages).1 = true := by
  cases mmdExists with
  | true => rfl
  | false =>
    rw [process_single_pdf, processDocExcept_fst]
    show writesAfterPages isDocWrite
      ((runLoop skipRepeat cs pages).events ++
        [Event.writeDet (runLoop skipRepeat cs pages).contentsDet,
         Event.writeMmd (runLoop skipRepeat cs pages).contents] ++
        (if (runLoop skipRepeat cs pages).drawImages.length = 0 then []
         else [Event.writeLayouts (runLoop skipRepeat cs pages).drawImages.length])) = true
    rw [List.append_assoc]
    apply writesAfterPages_append
    · exact loop_events_nodocwrite skipRepeat cs pages initState rfl
    · by_cases hd : (runLoop skipRepeat cs pages).drawImages.length = 0
      · simp [hd, isPageDone]
      · simp [hd, isPageDone]

/-- C3 amended: for a 2-page document where page 1's generated text contains
the terminal sentinel and page 2's does not, with the skip policy enabled,
the skipped page is excluded from the clean transcript, from the tagged
transcript and from the annotated PDF alike (the outputs equal those of the
1-page document consisting of page 1 alone), while the result still reports
`processed_pages = 1` out of `total_pages = 2`. -/
theorem c3_skipped_page_fully_excluded (t1 t2 : List Char) (w1 h1 w2 h2 : ℕ)
    (cs : ColorStream)
    (ht1 : containsSub eosSentinel t1 = true)
    (ht2 : containsSub eosSentinel t2 = false) :
    (runLoop true cs [⟨t1, w1, h1⟩, ⟨t2, w2, h2⟩]).contentsDet =
      (runLoop true cs [⟨t1, w1, h1⟩]).contentsDet
    ∧ (runLoop true cs [⟨t1, w1, h1⟩, ⟨t2, w2, h2⟩]).contents =
      (runLoop true cs [⟨t1, w1, h1⟩]).contents
    ∧ (runLoop true cs [⟨t1, w1, h1⟩, ⟨t2, w2, h2⟩]).drawImages =
      (runLoop true cs [⟨t1, w1, h1⟩]).drawImages
    ∧ (process_single_pdf false true cs [⟨t1, w1, h1⟩, ⟨t2, w2, h2⟩]).2 =
      DocStatus.success 2 1 := by
  have hstep2 : ∀ st : LoopState, stepPage true cs st ⟨t2, w2, h2⟩ =
      { st with
        events := st.events ++ [Event.pageDone st.pageNo]
        pageNo := st.pageNo + 1 } := by
    intro st
    rw [stepPage]
    simp [ht2]
  have hrun2 : runLoop true cs [⟨t1, w1, h1⟩, ⟨t2, w2, h2⟩] =
      { runLoop true cs [⟨t1, w1, h1⟩] with
        events := (runLoop true cs [⟨t1, w1, h1⟩]).events ++
          [Event.pageDone (runLoop true cs [⟨t1, w1, h1⟩]).pageNo]
        pageNo := (runLoop true cs [⟨t1, w1, h1⟩]).pageNo + 1 } := by
    rw [runLoop, runLoop, List.foldl_cons, List.foldl_cons, List.foldl_cons,
      List.foldl_nil, List.foldl_nil]
    exact hstep2 _
  have hpp1 : (runLoop true cs [⟨t1, w1, h1⟩]).processedPages = 1 := by
    rw [runLoop, List.foldl_cons, List.foldl_nil, stepPage]
    simp [ht1, processKept, initState]
  have hpp2 : (runLoop true cs [⟨t1, w1, h1⟩, ⟨t2, w2, h2⟩]).processedPages = 1 := by
    rw [hrun2]
    exact hpp1
  refine ⟨by rw [hrun2], by rw [hrun2], by rw [hrun2], ?_⟩
  simp only [process_single_pdf, runBody, hpp2]
  simp [processDocExcept]

/-- C3 witness: the amended statement applied to the spec's concrete
scenario texts. -/
theorem c3_witness :
    containsSub eosSentinel c3t1 = true
    ∧ containsSub eosSentinel c3t2 = false
    ∧ ((runLoop true cs0 [c3p1, c3p2]).contentsDet =
        (runLoop true cs0 [c3p1]).contentsDet
      ∧ (runLoop true cs0 [c3p1, c3p2]).contents =
        (runLoop true cs0 [c3p1]).contents
      ∧ (runLoop true cs0 [c3p1, c3p2]).drawImages =
        (runLoop true cs0 [c3p1]).drawImages
      ∧ (process_single_pdf false true cs0 [c3p1, c3p2]).2 =
        DocStatus.success 2 1) := by
  refine ⟨by decide, by decide, ?_⟩
  exact c3_skipped_page_fully_excluded c3t1 c3t2 1000 1000 1000 1000 cs0
    (by decide) (by decide)

/-- When every page lacks the terminal sentinel and the skip policy is
enabled, the loop changes nothing but the trace and the page counter: both
transcripts, the annotated-page list and `processed_pages` keep their
initial values. -/
theorem loop_skip_all (cs : ColorStream) :
    ∀ (pages : List PageIn) (st : LoopState),
      (∀ p ∈ pages, containsSub eosSentinel p.text = false) →
      ((pages.foldl (stepPage true cs) st).contentsDet = st.contentsDet
        ∧ (pages.foldl (stepPage true cs) st).contents = st.contents
        ∧ (pages.foldl (stepPage true cs) st).drawImages = st.drawImages
        ∧ (pages.foldl (stepPage true cs) st).processedPages = st.processedPages) := by
  intro pages
  induction pages with
  | nil => intro st _; exact ⟨rfl, rfl, rfl, rfl⟩
  | cons p rest ih =>
    intro st hall
    rw [List.foldl_cons]
    have hp : containsSub eosSentinel p.text = false :=
      hall p (List.mem_cons_self _ _)
    have hstep : stepPage true cs st p =
        { st with
          events := st.events ++ [Event.pageDone st.pageNo]
          pageNo := st.pageNo + 1 } := by
      rw [stepPage]
      simp [hp]
    rw [hstep]
    simpa using ih _ (fun q hq => hall q (List.mem_cons_of_mem _ hq))

/-- C9: with the skip policy enabled and no page containing the terminal
sentinel, `processed_pages` stays 0, the summary's division raises and the
document is reported `failed` with the `ZeroDivisionError` message — even
though the (empty) clean and tagged transcripts have already been written
— and a re-run, seeing the primary output exist, reports `skipped`. -/
theorem c9_zero_processed_division_failure (cs : ColorStream)
    (pages : List PageIn)
    (hall : ∀ p ∈ pages, containsSub eosSentinel p.text = false) :
    (process_single_pdf false true cs pages).2 = DocStatus.failed divMsg
    ∧ Event.writeMmd [] ∈ (process_single_pdf false true cs pages).1
    ∧ Event.writeDet [] ∈ (process_single_pdf false true cs pages).1
    ∧ process_single_pdf true true cs pages = ([], DocStatus.skipped) := by
  obtain ⟨hdet, hcon, hdraw, hpp⟩ := loop_skip_all cs pages initState hall
  have hCD : (runLoop true cs pages).contentsDet = [] := by
    rw [runLoop]
    simpa [initState] using hdet
  have hC : (runLoop true cs pages).contents = [] := by
    rw [runLoop]
    simpa [initState] using hcon
  have hDI : (runLoop true cs pages).drawImages = ([] : List (List DrawOp)) := by
    rw [runLoop]
    simpa [initState] using hdraw
  have hPP : (runLoop true cs pages).processedPages = 0 := by
    rw [runLoop]
    simpa [initState] using hpp
  refine ⟨?_, ?_, ?_, rfl⟩
  · simp only [process_single_pdf, runBody, hPP, hDI]
    simp [processDocExcept]
  · rw [process_single_pdf, processDocExcept_fst]
    simp only [runBody, hPP, hDI, hC, hCD]
    simp
  · rw [process_single_pdf, processDocExcept_fst]
    simp only [runBody, hPP, hDI, hC, hCD]
    simp

/-- C9 witness: a 1-page document whose text `abab` lacks the sentinel. -/
theorem c9_witness :
    containsSub eosSentinel c9page.text = false
    ∧ ((process_single_pdf false true cs0 [c9page]).2 = DocStatus.failed divMsg
      ∧ Event.writeMmd [] ∈ (process_single_pdf false true cs0 [c9page]).1
      ∧ Event.writeDet [] ∈ (process_single_pdf false true cs0 [c9page]).1
      ∧ process_single_pdf true true cs0 [c9page] = ([], DocStatus.skipped)) := by
  refine ⟨by decide, ?_⟩
  exact c9_zero_processed_division_failure cs0 [c9page] (by decide)

/-- C7: a document whose primary output does not exist and whose body
raises is reported `failed` with that exception's message, and the batch
loop still produces one result per input document, each obtained by
handing the document to the per-document pipeline (one failure never
aborts the run). -/
theorem c7_failure_isolated (docs : List DocIn) (i : ℕ) (d : DocIn)
    (e : List Char)
    (hdoc : docs.get? i = some d)
    (hflag : d.1 = false)
    (herr : d.2.2 = Except.error e) :
    (batchRun docs).length = docs.length
    ∧ (∀ j, (batchRun docs).get? j =
        (docs.get? j).map (fun x => processDocExcept x.1 x.2))
    ∧ (batchRun docs).get? i = some (d.2.1, DocStatus.failed e) := by
  refine ⟨by simp [batchRun], ?_, ?_⟩
  · intro j
    simp [batchRun]
  · rcases d with ⟨flag, evs, r⟩
    simp only at hflag herr
    subst hflag
    subst herr
    simp [batchRun, hdoc, processDocExcept]
    refine ⟨(false, evs, Except.error e), ?_, rfl⟩
    simpa using hdoc

/-- C7 witness: a 2-document batch whose first document's body raises
`boom`; the second document is still processed and succeeds. -/
theorem c7_witness :
    c7docs.get? 0 = some (false, ([], Except.error c7msg))
    ∧ (batchRun c7docs).length = c7docs.length
    ∧ (batchRun c7docs).get? 0 = some ([], DocStatus.failed c7msg)
    ∧ (batchRun c7docs).get? 1 = some ([], DocStatus.success 3 2) := by
  have h := c7_failure_isolated c7docs 0 (false, ([], Except.error c7msg))
    c7msg rfl rfl rfl
  exact ⟨rfl, h.1, h.2.2, rfl⟩

/-- The crop events and the running image index produced from one match's
points do not depend on the drawn color. -/
theorem points_color_free (lab : List Char) (w h : ℕ) (save : Bool)
    (c1 c2 : Color) :
    ∀ (pts : List (List ℤ)) (idx : ℕ),
      (processRefPoints lab w h save c1 pts idx).events =
        (processRefPoints lab w h save c2 pts idx).events
      ∧ (processRefPoints lab w h save c1 pts idx).imgIdx =
        (processRefPoints lab w h save c2 pts idx).imgIdx := by
  intro pts
  induction pts with
  | nil => intro idx; exact ⟨rfl, rfl⟩
  | cons p rest ih =>
    intro idx
    rcases p with - | ⟨a, - | ⟨b, - | ⟨c, - | ⟨d, - | ⟨x, xs⟩⟩⟩⟩⟩
    · exact ⟨rfl, rfl⟩
    · exact ⟨rfl, rfl⟩
    · exact ⟨rfl, rfl⟩
    · exact ⟨rfl, rfl⟩
    · simp only [processRefPoints]
      obtain ⟨he, hi⟩ := ih (if lab = ("image").data ∧ save then idx + 1 else idx)
      exact ⟨by rw [he], hi⟩
    · exact ⟨rfl, rfl⟩

/-- The crop events, image index and color cursor produced from one match
do not depend on the color stream. -/
theorem pref_color_free (w h : ℕ) (save : Bool) (cs1 cs2 : ColorStream)
    (m : RefMatch) (idx cIdx : ℕ) :
    (processRef w h save cs1 m idx cIdx).events =
      (processRef w h save cs2 m idx cIdx).events
    ∧ (processRef w h save cs1 m idx cIdx).imgIdx =
      (processRef w h save cs2 m idx cIdx).imgIdx
    ∧ (processRef w h save cs1 m idx cIdx).cIdx =
      (processRef w h save cs2 m idx cIdx).cIdx := by
  cases hx : extract_coordinates_and_label m w h with
  | none => simp [processRef, hx]
  | some r =>
    rcases r with ⟨lab, ptsList⟩
    simp only [processRef, hx]
    obtain ⟨he, hi⟩ := points_color_free lab w h save (cs1 cIdx) (cs2 cIdx) ptsList idx
    exact ⟨he, hi, by simp⟩

/-- The crop events, image index and color cursor of
`process_image_with_refs` do not depend on the color stream. -/
theorem pir_color_free (w h : ℕ) (save : Bool) (cs1 cs2 : ColorStream) :
    ∀ (refs : List RefMatch) (idx cIdx : ℕ),
      (process_image_with_refs w h save cs1 refs idx cIdx).events =
        (process_image_with_refs w h save cs2 refs idx cIdx).events
      ∧ (process_image_with_refs w h save cs1 refs idx cIdx).imgIdx =
        (process_image_with_refs w h save cs2 refs idx cIdx).imgIdx
      ∧ (process_image_with_refs w h save cs1 refs idx cIdx).cIdx =
        (process_image_with_refs w h save cs2 refs idx cIdx).cIdx := by
  intro refs
  induction refs with
  | nil => intro idx cIdx; exact ⟨rfl, rfl, rfl⟩
  | cons m rest ih =>
    intro idx cIdx
    simp only [process_image_with_refs]
    obtain ⟨hre, hri, hrc⟩ := pref_color_free w h save cs1 cs2 m idx cIdx
    rw [← hri, ← hrc]
    obtain ⟨he2, hi2, hc2⟩ :=
      ih (processRef w h save cs1 m idx cIdx).imgIdx (processRef w h save cs1 m idx cIdx).cIdx
    exact ⟨by rw [hre, he2], hi2, hc2⟩

/-- Two kept-page steps that differ only in the color stream agree on every
loop-state component except the annotated pages. -/
theorem kept_color_free (cs1 cs2 : ColorStream) (p : PageIn)
    (content : List Char) (st1 st2 : LoopState)
    (h1 : st1.contentsDet = st2.contentsDet) (h2 : st1.contents = st2.contents)
    (h3 : st1.events = st2.events) (h4 : st1.jdx = st2.jdx)
    (h5 : st1.processedPages = st2.processedPages) (h6 : st1.cIdx = st2.cIdx)
    (h7 : st1.pageNo = st2.pageNo) :
    (processKept cs1 st1 p content).contentsDet =
      (processKept cs2 st2 p content).contentsDet
    ∧ (processKept cs1 st1 p content).contents =
      (processKept cs2 st2 p content).contents
    ∧ (processKept cs1 st1 p content).events =
      (processKept cs2 st2 p content).events
    ∧ (processKept cs1 st1 p content).jdx = (processKept cs2 st2 p content).jdx
    ∧ (processKept cs1 st1 p content).processedPages =
      (processKept cs2 st2 p content).processedPages
    ∧ (processKept cs1 st1 p content).cIdx = (processKept cs2 st2 p content).cIdx
    ∧ (processKept cs1 st1 p content).pageNo =
      (processKept cs2 st2 p content).pageNo := by
  obtain ⟨he, -, hc⟩ := pir_color_free p.width p.height true cs1 cs2
    (re_match content) st2.jdx st2.cIdx
  simp only [processKept]
  rw [h1, h2, h3, h4, h5, h6, h7, he, hc]
  exact ⟨rfl, rfl, rfl, rfl, rfl, rfl, rfl⟩

/-- Two loop steps that differ only in the color stream agree on every
loop-state component except the annotated pages. -/
theorem step_color_free (skip : Bool) (cs1 cs2 : ColorStream) (p : PageIn)
    (st1 st2 : LoopState)
    (h1 : st1.contentsDet = st2.contentsDet) (h2 : st1.contents = st2.contents)
    (h3 : st1.events = st2.events) (h4 : st1.jdx = st2.jdx)
    (h5 : st1.processedPages = st2.processedPages) (h6 : st1.cIdx = st2.cIdx)
    (h7 : st1.pageNo = st2.pageNo) :
    (stepPage skip cs1 st1 p).contentsDet = (stepPage skip cs2 st2 p).contentsDet
    ∧ (stepPage skip cs1 st1 p).contents = (stepPage skip cs2 st2 p).contents
    ∧ (stepPage skip cs1 st1 p).events = (stepPage skip cs2 st2 p).events
    ∧ (stepPage skip cs1 st1 p).jdx = (stepPage skip cs2 st2 p).jdx
    ∧ (stepPage skip cs1 st1 p).processedPages =
      (stepPage skip cs2 st2 p).processedPages
    ∧ (stepPage skip cs1 st1 p).cIdx = (stepPage skip cs2 st2 p).cIdx
    ∧ (stepPage skip cs1 st1 p).pageNo = (stepPage skip cs2 st2 p).pageNo := by
  rw [stepPage, stepPage]
  by_cases heos : containsSub eosSentinel p.text
  · rw [if_pos heos, if_pos heos]
    exact kept_color_free cs1 cs2 p _ st1 st2 h1 h2 h3 h4 h5 h6 h7
  · rw [if_neg heos, if_neg heos]
    by_cases hskip : skip = true
    · rw [if_pos hskip, if_pos hskip]
      simp only
      rw [h3, h7]
      exact ⟨h1, h2, rfl, h4, h5, h6, rfl⟩
    · rw [if_neg hskip, if_neg hskip]
      exact kept_color_free cs1 cs2 p _ st1 st2 h1 h2 h3 h4 h5 h6 h7

/-- Two runs of the post-processing loop that differ only in the color
stream agree on every loop-state component except the annotated pages. -/
theorem loop_color_free (skip : Bool) (cs1 cs2 : ColorStream) :
    ∀ (pages : List PageIn) (st1 st2 : LoopState),
      st1.contentsDet = st2.contentsDet → st1.contents = st2.contents →
      st1.events = st2.events → st1.jdx = st2.jdx →
      st1.processedPages = st2.processedPages → st1.cIdx = st2.cIdx →
      st1.pageNo = st2.pageNo →
      ((pages.foldl (stepPage skip cs1) st1).contentsDet =
          (pages.foldl (stepPage skip cs2) st2).contentsDet
        ∧ (pages.foldl (stepPage skip cs1) st1).contents =
          (pages.foldl (stepPage skip cs2) st2).contents
        ∧ (pages.foldl (stepPage skip cs1) st1).events =
          (pages.foldl (stepPage skip cs2) st2).events) := by
  intro pages
  induction pages with
  | nil =>
    intro st1 st2 h1 h2 h3 _ _ _ _
    exact ⟨h1, h2, h3⟩
  | cons p rest ih =>
    intro st1 st2 h1 h2 h3 h4 h5 h6 h7
    rw [List.foldl_cons, List.foldl_cons]
    obtain ⟨g1, g2, g3, g4, g5, g6, g7⟩ :=
      step_color_free skip cs1 cs2 p st1 st2 h1 h2 h3 h4 h5 h6 h7
    exact ih _ _ g1 g2 g3 g4 g5 g6 g7

/-- C10: given identical generated texts and bitmaps, the clean and tagged
transcripts (and the whole crop/write trace) are identical across any two
runs of the random number generator, but the annotated pages are not
reproducible: the two concrete color streams `cs0` and `csB` yield
different annotations for the same one-page input. -/
theorem c10_rng_annotations :
    (∀ (skip : Bool) (cs1 cs2 : ColorStream) (pages : List PageIn),
      (runLoop skip cs1 pages).contents = (runLoop skip cs2 pages).contents
      ∧ (runLoop skip cs1 pages).contentsDet =
        (runLoop skip cs2 pages).contentsDet
      ∧ (runLoop skip cs1 pages).events = (runLoop skip cs2 pages).events)
    ∧ (runLoop true cs0 [c10page]).drawImages ≠
      (runLoop true csB [c10page]).drawImages := by
  constructor
  · intro skip cs1 cs2 pages
    obtain ⟨a1, a2, a3⟩ :=
      loop_color_free skip cs1 cs2 pages initState initState rfl rfl rfl rfl rfl rfl rfl
    exact ⟨a2, a1, a3⟩
  · decide
